import Mathlib

/-!
Verification of the annotation decoration pipeline and tree-view lifecycle of
the gitlens extension, embedded shallowly from the TypeScript source:

* `src/annotations/heatmapBlameAnnotationProvider.ts` — the heatmap blame
  pass (`onProvideAnnotation`): walks blame lines, memoizes one decoration
  per commit sha, and applies the batch to the editor.
* `src/views/gitExplorer.ts` — root-node lifecycle (`setRoot` / `clearRoot`),
  root construction (`getRootNode` / `getChildren`) and the auto-refresh
  controller (`setAutoRefresh`).
* `src/commands/showLineBlame.ts`, `src/commands/toggleLineBlame.ts` — the
  try/catch command wrappers.

Commits and style payloads are opaque to the pass, so the embedding is
polymorphic in the commit type `χ` and the style type `σ`; the call
`Annotations.heatmap(commit, now, renderOptions)` (whose source is outside
this tree, with `now` and `renderOptions` fixed for the whole pass) is
abstracted as a function `hm : χ → σ`.
-/

/-- A blame line, as produced by the blame provider: the zero-based line
number and the commit sha attributed to it. -/
structure BlameLine where
  line : Nat
  sha : String
deriving DecidableEq, Repr

/-- A decoration descriptor: an opaque style payload (everything the source
spreads with `...heatmap` when cloning) plus the line range
`(startLine, endLine)`; the source always builds `Range(line, 0, line, 0)`. -/
structure DecorationOptions (σ : Type) where
  style : σ
  range : Nat × Nat
deriving DecidableEq, Repr

/-- The blame payload returned by `getBlame()`: the ordered blame lines and
the sha-indexed commit map (embedded as an association list, mirroring
`blame.commits.get`). -/
structure GitBlame (χ : Type) where
  lines : List BlameLine
  commits : List (String × χ)
deriving DecidableEq, Repr

/-- Association-list lookup, embedding `Map.get` / keyed object access. -/
def alookup {α : Type} : List (String × α) → String → Option α
  | [], _ => none
  | (k, v) :: rest, s => if k = s then some v else alookup rest s

/-- The loop body of `HeatmapBlameAnnotationProvider.onProvideAnnotation`
(lines 28–51 of the source): for each blame line, reuse the pass-scoped
cached descriptor for its sha (cloned with the line's own single-line range),
otherwise resolve the commit — skipping the line silently when the sha is
absent from the commit map — build a fresh descriptor, emit it and cache it
under the sha. -/
def heatmapLoop {χ σ : Type} (hm : χ → σ) (commits : List (String × χ)) :
    List BlameLine → List (String × DecorationOptions σ) → List (DecorationOptions σ)
  | [], _ => []
  | l :: rest, decorationsMap =>
    match alookup decorationsMap l.sha with
    | some cached =>
        { cached with range := (l.line, l.line) } :: heatmapLoop hm commits rest decorationsMap
    | none =>
        match alookup commits l.sha with
        | none => heatmapLoop hm commits rest decorationsMap
        | some c =>
            { style := hm c, range := (l.line, l.line) } ::
              heatmapLoop hm commits rest ((l.sha, { style := hm c, range := (l.line, l.line) }) :: decorationsMap)

/-- The observable outcome of one `onProvideAnnotation` call: its boolean
return value, the decorations accumulated in `this.decorations`, and the
argument lists of every `editor.setDecorations` call made. -/
structure PassResult (σ : Type) where
  returned : Bool
  decorations : List (DecorationOptions σ)
  setDecorationsCalls : List (List (DecorationOptions σ))
deriving DecidableEq, Repr

/-- `HeatmapBlameAnnotationProvider.onProvideAnnotation`: returns `false`
with no decoration work when `getBlame()` yields `undefined`; otherwise runs
the loop from an empty `decorationsMap`, calls `setDecorations` once with the
whole batch only when at least one decoration was emitted, and returns
`true`. -/
def provideHeatmap {χ σ : Type} (hm : χ → σ) (blame : Option (GitBlame χ)) : PassResult σ :=
  match blame with
  | none => { returned := false, decorations := [], setDecorationsCalls := [] }
  | some b =>
      let decorations := heatmapLoop hm b.commits b.lines []
      { returned := true
        decorations := decorations
        setDecorationsCalls := if decorations.length ≠ 0 then [decorations] else [] }

/-- The descriptor a blame line contributes when its sha resolves: the style
computed from its commit and the line's own single-line range. -/
def resolveDeco {χ σ : Type} (hm : χ → σ) (commits : List (String × χ))
    (l : BlameLine) : Option (DecorationOptions σ) :=
  (alookup commits l.sha).map fun c => { style := hm c, range := (l.line, l.line) }

/-- The cache invariant of the pass: every cached descriptor's style is the
one computed from the commit its sha resolves to. -/
def CacheOk {χ σ : Type} (hm : χ → σ) (commits : List (String × χ))
    (decorationsMap : List (String × DecorationOptions σ)) : Prop :=
  ∀ s d, alookup decorationsMap s = some d →
    ∃ c, alookup commits s = some c ∧ d.style = hm c

lemma cacheOk_nil {χ σ : Type} (hm : χ → σ) (commits : List (String × χ)) :
    CacheOk hm commits [] := by
  intro s d h
  simp [alookup] at h

/-- Functional characterization of the loop: starting from any cache
satisfying the invariant, the emitted sequence is exactly the in-order
image of the resolvable lines, each line mapped to the style of its commit
and its own single-line range. -/
lemma heatmapLoop_eq_filterMap {χ σ : Type} (hm : χ → σ) (commits : List (String × χ))
    (lines : List BlameLine) (decorationsMap : List (String × DecorationOptions σ))
    (hc : CacheOk hm commits decorationsMap) :
    heatmapLoop hm commits lines decorationsMap = lines.filterMap (resolveDeco hm commits) := by
  induction lines generalizing decorationsMap with
  | nil => simp [heatmapLoop]
  | cons l rest ih =>
    rcases hd : alookup decorationsMap l.sha with _ | cached
    · rcases hcm : alookup commits l.sha with _ | c
      · simp [heatmapLoop, hd, hcm, List.filterMap_cons, resolveDeco, ih decorationsMap hc]
      · have hc' : CacheOk hm commits
            ((l.sha, ({ style := hm c, range := (l.line, l.line) } : DecorationOptions σ)) :: decorationsMap) := by
          intro s d h
          by_cases hs : l.sha = s
          · subst hs
            simp [alookup] at h
            exact ⟨c, hcm, by simp [← h]⟩
          · simp [alookup, hs] at h
            exact hc s d h
        simp [heatmapLoop, hd, hcm, List.filterMap_cons, resolveDeco, ih _ hc']
    · obtain ⟨c, hcm, hs⟩ := hc l.sha cached hd
      simp [heatmapLoop, hd, hcm, List.filterMap_cons, resolveDeco, ih decorationsMap hc]
      cases cached
      simp at hs
      simp [hs]

lemma heatmapLoop_nil_cache {χ σ : Type} (hm : χ → σ) (commits : List (String × χ))
    (lines : List BlameLine) :
    heatmapLoop hm commits lines [] = lines.filterMap (resolveDeco hm commits) :=
  heatmapLoop_eq_filterMap hm commits lines [] (cacheOk_nil hm commits)

lemma length_filterMap_le' {α β : Type} (f : α → Option β) (l : List α) :
    (l.filterMap f).length ≤ l.length := by
  induction l with
  | nil => simp
  | cons a l ih =>
    rcases h : f a with _ | b
    · simp [List.filterMap_cons, h]
      exact Nat.le_succ_of_le ih
    · simpa [List.filterMap_cons, h, Nat.succ_le_succ_iff] using ih

lemma length_filterMap_eq_iff {α β : Type} (f : α → Option β) (l : List α) :
    (l.filterMap f).length = l.length ↔ ∀ a ∈ l, (f a).isSome = true := by
  induction l with
  | nil => simp
  | cons a l ih =>
    rcases h : f a with _ | b
    · simp only [List.filterMap_cons, h, List.length_cons]
      constructor
      · intro hlen
        exact absurd hlen (Nat.ne_of_lt (Nat.lt_succ_of_le (length_filterMap_le' f l)))
      · intro hall
        have := hall a (by simp)
        simp [h] at this
    · simp [List.filterMap_cons, h, Nat.succ_inj, ih, Option.isSome]

lemma map_range_filterMap {χ σ : Type} (hm : χ → σ) (commits : List (String × χ))
    (lines : List BlameLine) :
    (lines.filterMap (resolveDeco hm commits)).map (fun d => d.range)
      = (lines.filter (fun l => (alookup commits l.sha).isSome)).map (fun l => (l.line, l.line)) := by
  induction lines with
  | nil => simp
  | cons l rest ih =>
    rcases h : alookup commits l.sha with _ | c
    · simp [List.filterMap_cons, List.filter_cons, resolveDeco, h, ih]
    · simp [List.filterMap_cons, List.filter_cons, resolveDeco, h, ih]

/-- C1: within one blame pass the output is pointwise determined — each
resolvable line yields the style computed from its commit and its own
single-line range, so any two descriptors for the same commit sha carry
structurally identical styles and differ only in range (the first occurrence
computes the style, later ones reuse the cached payload). On the concrete
input lines `[(0,"c1"),(1,"c1"),(2,"c2")]` with both commits resolvable,
three descriptors come out, descriptor 0 and descriptor 1 share the same
style, descriptor 2's style differs, and the ranges are `(0,0)`, `(1,1)`,
`(2,2)`. -/
theorem heatmap_style_dedup :
    (∀ (χ σ : Type) (hm : χ → σ) (commits : List (String × χ)) (lines : List BlameLine),
        heatmapLoop hm commits lines [] = lines.filterMap (resolveDeco hm commits)) ∧
    heatmapLoop (fun c : Nat => c) [("c1", 1), ("c2", 2)]
        [⟨0, "c1"⟩, ⟨1, "c1"⟩, ⟨2, "c2"⟩] []
      = [⟨1, (0, 0)⟩, ⟨1, (1, 1)⟩, ⟨2, (2, 2)⟩] ∧
    (DecorationOptions.mk 1 (0, 0)).style = (DecorationOptions.mk 1 (1, 1)).style ∧
    (DecorationOptions.mk 2 (2, 2)).style ≠ (DecorationOptions.mk 1 (0, 0)).style := by
  refine ⟨fun χ σ hm commits lines => heatmapLoop_nil_cache hm commits lines, ?_, rfl, by decide⟩
  decide

/-- C5: a blame line whose sha is absent from the commit map contributes no
decoration and does not disturb any other line — the pass on any input
containing such a line equals the pass on the input with that line removed
(and, being a total function, it raises no error and is not aborted). -/
theorem unresolvable_line_skipped {χ σ : Type} (hm : χ → σ) (commits : List (String × χ))
    (xs ys : List BlameLine) (l : BlameLine) (h : alookup commits l.sha = none) :
    heatmapLoop hm commits (xs ++ l :: ys) [] = heatmapLoop hm commits (xs ++ ys) [] := by
  rw [heatmapLoop_nil_cache, heatmapLoop_nil_cache, List.filterMap_append, List.filterMap_append]
  simp [List.filterMap_cons, resolveDeco, h]

theorem unresolvable_line_skipped_witness :
    heatmapLoop (fun c : Nat => c) [("c1", 1)] [⟨0, "c1"⟩, ⟨1, "zz"⟩, ⟨2, "c1"⟩] []
      = heatmapLoop (fun c : Nat => c) [("c1", 1)] [⟨0, "c1"⟩, ⟨2, "c1"⟩] [] :=
  unresolvable_line_skipped (fun c : Nat => c) [("c1", 1)] [⟨0, "c1"⟩] [⟨2, "c1"⟩] ⟨1, "zz"⟩ rfl

/-- C6: the pass emits at most one descriptor per blame line, with equality
exactly when every line's sha resolves in the commit map, and the emitted
descriptors keep the input order: their ranges are the single-line ranges of
the resolvable lines in file order. -/
theorem heatmap_output_length_order {χ σ : Type} (hm : χ → σ)
    (commits : List (String × χ)) (lines : List BlameLine) :
    (heatmapLoop hm commits lines []).length ≤ lines.length ∧
    ((heatmapLoop hm commits lines []).length = lines.length ↔
      ∀ l ∈ lines, (alookup commits l.sha).isSome = true) ∧
    (heatmapLoop hm commits lines []).map (fun d => d.range)
      = (lines.filter (fun l => (alookup commits l.sha).isSome)).map (fun l => (l.line, l.line)) := by
  rw [heatmapLoop_nil_cache]
  refine ⟨length_filterMap_le' _ lines, ?_, map_range_filterMap hm commits lines⟩
  rw [length_filterMap_eq_iff]
  constructor
  · intro hall l hl
    have := hall l hl
    simp [resolveDeco] at this ⊢
    exact this
  · intro hall l hl
    have := hall l hl
    simp [resolveDeco]
    exact this

/-- C7: when the blame provider returns `undefined`, `onProvideAnnotation`
does no decoration work — no descriptor is built and `setDecorations` is
never called — and it returns `false` rather than raising an error. -/
theorem blame_unavailable_noop {χ σ : Type} (hm : χ → σ) :
    provideHeatmap hm (none : Option (GitBlame χ))
      = { returned := false, decorations := [], setDecorationsCalls := [] } := rfl

/-- C10: when blame data is available but every line is unresolvable so the
output sequence is empty, the pass still returns `true` and never calls
`setDecorations`, leaving the editor's existing decorations untouched. -/
theorem empty_pass_no_apply {χ σ : Type} (hm : χ → σ) (b : GitBlame χ)
    (h : heatmapLoop hm b.commits b.lines [] = []) :
    (provideHeatmap hm (some b)).returned = true ∧
    (provideHeatmap hm (some b)).setDecorationsCalls = [] := by
  simp [provideHeatmap, h]

theorem empty_pass_no_apply_witness :
    (provideHeatmap (fun c : Nat => c) (some ⟨[⟨0, "c1"⟩], []⟩)).returned = true ∧
    (provideHeatmap (fun c : Nat => c) (some ⟨[⟨0, "c1"⟩], []⟩)).setDecorationsCalls = [] :=
  empty_pass_no_apply (fun c : Nat => c) ⟨[⟨0, "c1"⟩], []⟩ rfl

/-- The root-lifecycle state of `GitExplorer`: node instances are named by
the order of their construction, `root` is `this._root` (the id of the
current instance, if any), `next` is the supply of fresh instance ids, and
`disposed` records every `dispose()` call made, newest first. -/
structure RootLifecycleState where
  next : Nat
  root : Option Nat
  disposed : List Nat
deriving DecidableEq, Repr

/-- The explorer before any root has been constructed. -/
def initialLifecycle : RootLifecycleState := ⟨0, none, []⟩

/-- `GitExplorer.setRoot` (source lines 237–246): if the incoming root is the
very same instance, return `false` without touching anything; otherwise
dispose the current root (when there is one), install the incoming root and
return `true`. -/
def setRoot (root : Option Nat) (s : RootLifecycleState) : Bool × RootLifecycleState :=
  if s.root = root then (false, s)
  else
    match s.root with
    | none => (true, { s with root := root })
    | some r => (true, { s with root := root, disposed := r :: s.disposed })

/-- `GitExplorer.clearRoot` (source lines 226–231): a no-op when there is no
root, otherwise dispose the current root and clear it. -/
def clearRoot (s : RootLifecycleState) : RootLifecycleState :=
  match s.root with
  | none => s
  | some r => { s with root := none, disposed := r :: s.disposed }

/-- The ways the lifecycle operations are invoked by `refresh`, `reset`,
`switchTo`, `onActiveEditorChanged`, `onRepositoriesChanged` and
`onVisibleEditorsChanged`: `setRoot` is always fed either a freshly
constructed node from `getRootNode`, `undefined`, or the current root
itself (the history-view reuse paths of `getHistoryNode`); `clearRoot` is
called directly. -/
inductive RootOp where
  | setFresh
  | setNone
  | setSame
  | clear
deriving DecidableEq, Repr

/-- One lifecycle call: `setFresh` constructs a brand-new node instance and
hands it to `setRoot`; the others are direct embeddings. -/
def applyRootOp (s : RootLifecycleState) : RootOp → RootLifecycleState
  | RootOp.setFresh => { (setRoot (some s.next) s).2 with next := s.next + 1 }
  | RootOp.setNone => (setRoot none s).2
  | RootOp.setSame => (setRoot s.root s).2
  | RootOp.clear => clearRoot s

/-- Runs a sequence of lifecycle calls. -/
def runRootOps (s : RootLifecycleState) : List RootOp → RootLifecycleState
  | [] => s
  | op :: ops => runRootOps (applyRootOp s op) ops

/-- The lifecycle invariant: no instance is disposed twice, the current root
is a constructed and never-disposed instance, only constructed instances are
disposed, and every constructed instance that has not been disposed is the
current root — hence at most one node instance is live at any time, and every
replaced or discarded instance was disposed exactly once. -/
def LifecycleInv (s : RootLifecycleState) : Prop :=
  s.disposed.Nodup ∧
  (∀ r, s.root = some r → r < s.next ∧ r ∉ s.disposed) ∧
  (∀ r ∈ s.disposed, r < s.next) ∧
  (∀ i, i < s.next → i ∉ s.disposed → s.root = some i)

lemma lifecycleInv_initial : LifecycleInv initialLifecycle := by
  refine ⟨List.nodup_nil, ?_, ?_, ?_⟩ <;> simp [initialLifecycle]

lemma lifecycleInv_of_parts (s : RootLifecycleState)
    (hnd : s.disposed.Nodup)
    (hroot : ∀ r, s.root = some r → r < s.next ∧ r ∉ s.disposed)
    (hbound : ∀ r ∈ s.disposed, r < s.next)
    (hlive : ∀ i, i < s.next → i ∉ s.disposed → s.root = some i) :
    LifecycleInv s := ⟨hnd, hroot, hbound, hlive⟩

lemma lifecycleInv_step (s : RootLifecycleState) (op : RootOp) (h : LifecycleInv s) :
    LifecycleInv (applyRootOp s op) := by
  obtain ⟨hnd, hroot, hbound, hlive⟩ := h
  cases op with
  | setFresh =>
    rcases hr : s.root with _ | r
    · have hstep : applyRootOp s RootOp.setFresh = ⟨s.next + 1, some s.next, s.disposed⟩ := by
        simp [applyRootOp, setRoot, hr]
      rw [hstep]
      refine lifecycleInv_of_parts _ hnd ?_ ?_ ?_
      · intro r2 hr2
        simp at hr2
        subst hr2
        refine ⟨Nat.lt_succ_self _, fun hmem => ?_⟩
        exact Nat.lt_irrefl _ (hbound s.next hmem)
      · intro r2 hmem
        exact Nat.lt_succ_of_lt (hbound r2 hmem)
      · intro i hi hmem
        simp only []
        rcases Nat.lt_succ_iff_lt_or_eq.mp hi with hlt | heq
        · exact absurd (hlive i hlt hmem) (by simp [hr])
        · simp [heq]
    · have hrn : r ∉ s.disposed := (hroot r hr).2
      have hrb : r < s.next := (hroot r hr).1
      have hrne : r ≠ s.next := Nat.ne_of_lt hrb
      have hstep : applyRootOp s RootOp.setFresh
          = ⟨s.next + 1, some s.next, r :: s.disposed⟩ := by
        simp [applyRootOp, setRoot, hr, hrne]
      rw [hstep]
      refine lifecycleInv_of_parts _ ?_ ?_ ?_ ?_
      · exact List.nodup_cons.mpr ⟨hrn, hnd⟩
      · intro r2 hr2
        simp at hr2
        subst hr2
        refine ⟨Nat.lt_succ_self _, fun hmem => ?_⟩
        simp at hmem
        rcases hmem with heq | hmem
        · omega
        · exact Nat.lt_irrefl _ (hbound s.next hmem)
      · intro r2 hmem
        show r2 < s.next + 1
        simp at hmem
        rcases hmem with heq | hmem
        · omega
        · exact Nat.lt_succ_of_lt (hbound r2 hmem)
      · intro i hi hmem
        simp at hmem ⊢
        rcases Nat.lt_succ_iff_lt_or_eq.mp hi with hlt | heq
        · have := hlive i hlt hmem.2
          rw [hr] at this
          simp at this
          exact absurd this.symm hmem.1
        · exact heq.symm
  | setNone =>
    rcases hr : s.root with _ | r
    · have hstep : applyRootOp s RootOp.setNone = s := by
        simp [applyRootOp, setRoot, hr]
      rw [hstep]
      exact ⟨hnd, hroot, hbound, hlive⟩
    · have hrn : r ∉ s.disposed := (hroot r hr).2
      have hstep : applyRootOp s RootOp.setNone = ⟨s.next, none, r :: s.disposed⟩ := by
        simp [applyRootOp, setRoot, hr]
      rw [hstep]
      refine lifecycleInv_of_parts _ ?_ ?_ ?_ ?_
      · exact List.nodup_cons.mpr ⟨hrn, hnd⟩
      · intro r2 hr2
        simp at hr2
      · intro r2 hmem
        simp at hmem
        rcases hmem with heq | hmem
        · exact heq ▸ (hroot r hr).1
        · exact hbound r2 hmem
      · intro i hi hmem
        simp at hmem
        have := hlive i hi hmem.2
        rw [hr] at this
        simp at this
        exact absurd this.symm hmem.1
  | setSame =>
    have hstep : applyRootOp s RootOp.setSame = s := by
      simp [applyRootOp, setRoot]
    rw [hstep]
    exact ⟨hnd, hroot, hbound, hlive⟩
  | clear =>
    rcases hr : s.root with _ | r
    · have hstep : applyRootOp s RootOp.clear = s := by
        simp [applyRootOp, clearRoot, hr]
      rw [hstep]
      exact ⟨hnd, hroot, hbound, hlive⟩
    · have hrn : r ∉ s.disposed := (hroot r hr).2
      have hstep : applyRootOp s RootOp.clear = ⟨s.next, none, r :: s.disposed⟩ := by
        simp [applyRootOp, clearRoot, hr]
      rw [hstep]
      refine lifecycleInv_of_parts _ ?_ ?_ ?_ ?_
      · exact List.nodup_cons.mpr ⟨hrn, hnd⟩
      · intro r2 hr2
        simp at hr2
      · intro r2 hmem
        simp at hmem
        rcases hmem with heq | hmem
        · exact heq ▸ (hroot r hr).1
        · exact hbound r2 hmem
      · intro i hi hmem
        simp at hmem
        have := hlive i hi hmem.2
        rw [hr] at this
        simp at this
        exact absurd this.symm hmem.1

lemma lifecycleInv_run (s : RootLifecycleState) (ops : List RootOp) (h : LifecycleInv s) :
    LifecycleInv (runRootOps s ops) := by
  induction ops generalizing s with
  | nil => exact h
  | cons op ops ih => exact ih _ (lifecycleInv_step s op h)

/-- C3: along any sequence of lifecycle operations from the initial state,
the lifecycle invariant holds — at most one root node instance is live
(every constructed, undisposed instance is the current root), no instance is
ever disposed twice, and an instance is disposed exactly when it is replaced
or discarded; moreover `setRoot` with the current instance itself returns
`false` and disposes nothing. -/
theorem root_lifecycle_safe :
    (∀ ops : List RootOp, LifecycleInv (runRootOps initialLifecycle ops)) ∧
    (∀ s : RootLifecycleState, setRoot s.root s = (false, s)) := by
  constructor
  · intro ops
    exact lifecycleInv_run initialLifecycle ops lifecycleInv_initial
  · intro s
    simp [setRoot]

/-- The explorer view modes of `GitExplorerView` that remain after the
`Auto` mode has been resolved at configuration time. -/
inductive ExplorerViewMode where
  | history
  | repository
deriving DecidableEq, Repr

/-- The tree-node variants reachable from `GitExplorer` (`MessageNode`,
`RepositoryNode` with its repository path and the `activeRepository` flag
passed as the fourth constructor argument, `RepositoriesNode` over the
repository paths, `HistoryNode` keyed by its uri). -/
inductive ExplorerNode where
  | message (msg : String)
  | repository (path : String) (activeRepository : Bool)
  | repositories (paths : List String)
  | history (uriKey : String)
deriving DecidableEq, Repr

/-- Modelled from the spec: the per-variant `getChildren` of
`explorerNodes.ts` is not under `src/`; per the spec a message node is an
explanatory leaf with no children and a repositories node aggregates one
repository node per repository. -/
def nodeChildren : ExplorerNode → List ExplorerNode
  | ExplorerNode.message _ => []
  | ExplorerNode.repository _ _ => []
  | ExplorerNode.repositories paths => paths.map fun p => ExplorerNode.repository p false
  | ExplorerNode.history _ => []

/-- The repository-view branch of `GitExplorer.getRootNode` (source lines
149–162): materialize the provider's repositories; zero of them yields no
root, exactly one yields a `RepositoryNode` with the active flag set, and
more than one yields a `RepositoriesNode` over the whole set. -/
def getRootNode (repositories : List String) : Option ExplorerNode :=
  match repositories with
  | [] => none
  | [repo] => some (ExplorerNode.repository repo true)
  | _ => some (ExplorerNode.repositories repositories)

/-- `GitExplorer.getChildren` (source lines 123–136, after the pending-load
await): with no root it returns a single message node chosen by the current
view; otherwise it delegates to the queried node, defaulting to the root. -/
def getChildren (view : Option ExplorerViewMode) (root : Option ExplorerNode)
    (node : Option ExplorerNode) : List ExplorerNode :=
  match root with
  | none =>
      if view = some ExplorerViewMode.history then
        [ExplorerNode.message "No active file – no history to show"]
      else
        [ExplorerNode.message "No repositories found"]
  | some root =>
      match node with
      | none => nodeChildren root
      | some node => nodeChildren node

/-- C4: root construction is driven by repository cardinality — zero
repositories yields no root, and `getChildren` in the repository view then
returns exactly one explanatory "No repositories found" message node, itself
childless; exactly one repository yields a single repository node with the
active/sole flag set; more than one yields an aggregating repositories
node. -/
theorem repositoryView_root_cardinality :
    (getRootNode [] = none ∧
      getChildren (some ExplorerViewMode.repository) none none
        = [ExplorerNode.message "No repositories found"] ∧
      nodeChildren (ExplorerNode.message "No repositories found") = []) ∧
    (∀ repo, getRootNode [repo] = some (ExplorerNode.repository repo true)) ∧
    (∀ repos : List String, 2 ≤ repos.length →
      getRootNode repos = some (ExplorerNode.repositories repos)) := by
  refine ⟨⟨rfl, rfl, rfl⟩, fun repo => rfl, fun repos h => ?_⟩
  match repos with
  | [] => simp at h
  | [r] => simp at h
  | a :: b :: rest => rfl

theorem repositoryView_root_cardinality_witness :
    getRootNode ["a", "b"] = some (ExplorerNode.repositories ["a", "b"]) :=
  repositoryView_root_cardinality.2.2 ["a", "b"] (by decide)

/-- The auto-refresh controller state: `sub` is `this._autoRefreshDisposable`
(the id of the live "repositories changed" subscription, if any), `nextSub`
supplies fresh subscription ids, and `wsAutoRefresh` is the persisted
`WorkspaceState.GitExplorerAutoRefresh` value (`none` when never written;
reads default it to `true`). -/
structure AutoRefreshState where
  sub : Option Nat
  nextSub : Nat
  wsAutoRefresh : Option Bool
deriving DecidableEq, Repr

/-- The observable effects of one `setAutoRefresh` call: the resulting
state, whether `_onDidChangeAutoRefresh.fire()` ran, whether a tree
`refresh` was triggered, the value handed to the
`gitlens:gitExplorer:autoRefresh` command context, and the ids of the
subscriptions disposed. -/
structure AutoRefreshEffects where
  state : AutoRefreshState
  firedDidChangeAutoRefresh : Bool
  refreshed : Bool
  commandContext : Bool
  disposedSubs : List Nat
deriving DecidableEq, Repr

/-- `GitExplorer.setAutoRefresh` (source lines 271–300): always dispose any
existing subscription first; when `enabled`, resolve the workspace flag —
from persisted storage (default `true`) when the argument is omitted,
otherwise persist the argument, fire the change event and remember it as
`toggled` — and subscribe only when the resolved flag is true; finally set
the command context to `enabled && workspaceEnabled` and refresh only when
`toggled` ended up true. -/
def setAutoRefresh (enabled : Bool) (workspaceEnabled : Option Bool)
    (s : AutoRefreshState) : AutoRefreshEffects :=
  let disposedSubs := match s.sub with | some d => [d] | none => []
  let s1 : AutoRefreshState := { s with sub := none }
  if enabled then
    match workspaceEnabled with
    | none =>
        let we := s1.wsAutoRefresh.getD true
        let s2 := if we then { s1 with sub := some s1.nextSub, nextSub := s1.nextSub + 1 } else s1
        { state := s2, firedDidChangeAutoRefresh := false, refreshed := false
          commandContext := we, disposedSubs := disposedSubs }
    | some we =>
        let s2 : AutoRefreshState := { s1 with wsAutoRefresh := some we }
        let s3 := if we then { s2 with sub := some s2.nextSub, nextSub := s2.nextSub + 1 } else s2
        { state := s3, firedDidChangeAutoRefresh := true, refreshed := we
          commandContext := we, disposedSubs := disposedSubs }
  else
    { state := s1, firedDidChangeAutoRefresh := false, refreshed := false
      commandContext := false, disposedSubs := disposedSubs }

/-- C2 counterexample: the claim says an explicitly provided
`workspaceEnabled` argument is always persisted, but with `enabled = false`
the source (lines 278–287) never reaches the persisting branch — calling
`setAutoRefresh(false, true)` on a store that has never been written leaves
the persisted flag unwritten instead of setting it to `true`. -/
theorem setAutoRefresh_persist_counterexample :
    (setAutoRefresh false (some true)
        { sub := none, nextSub := 0, wsAutoRefresh := none }).state.wsAutoRefresh
      ≠ some true := by decide

/-- C2 (amended): the "auto-refresh toggled" notification fires exactly when
`enabled` is true and the `workspaceEnabled` argument was explicitly
provided — so only when the workspace flag could have been changed by this
call, never on a plain enable/disable — and a tree refresh is triggered
exactly when such an explicit argument was `true`; when `enabled` is true an
explicitly provided flag is persisted, while an omitted one makes the call
read the persisted default (`true`) and leaves the store untouched; when
`enabled` is false the store is never written. -/
theorem setAutoRefresh_toggle_semantics (enabled : Bool) (w : Option Bool)
    (s : AutoRefreshState) :
    (setAutoRefresh enabled w s).firedDidChangeAutoRefresh = (enabled && w.isSome) ∧
    (setAutoRefresh enabled w s).refreshed = (enabled && w.getD false) ∧
    (∀ b, enabled = true → w = some b →
      (setAutoRefresh enabled w s).state.wsAutoRefresh = some b) ∧
    (enabled = true → w = none →
      (setAutoRefresh enabled w s).state.wsAutoRefresh = s.wsAutoRefresh ∧
      (setAutoRefresh enabled w s).commandContext = s.wsAutoRefresh.getD true) ∧
    (enabled = false → (setAutoRefresh enabled w s).state.wsAutoRefresh = s.wsAutoRefresh) := by
  cases enabled with
  | false =>
    cases w <;> simp [setAutoRefresh]
  | true =>
    cases w with
    | none =>
      rcases hws : s.wsAutoRefresh.getD true with _ | _ <;>
        simp [setAutoRefresh, hws]
    | some b =>
      cases b <;> simp [setAutoRefresh]

theorem setAutoRefresh_toggle_semantics_witness :
    (setAutoRefresh true (some false)
        { sub := none, nextSub := 0, wsAutoRefresh := none }).state.wsAutoRefresh
      = some false :=
  (setAutoRefresh_toggle_semantics true (some false)
    { sub := none, nextSub := 0, wsAutoRefresh := none }).2.2.1 false rfl rfl

/-- C8: disabling auto-refresh always releases any existing subscription
(whatever the prior state), installs nothing new and changes nothing else,
and the disable operation is idempotent — a second disable finds the same
state and nothing left to dispose. -/
theorem setAutoRefresh_disable (w : Option Bool) (s : AutoRefreshState) :
    (setAutoRefresh false w s).state = { s with sub := none } ∧
    (setAutoRefresh false w s).state.sub = none ∧
    (setAutoRefresh false w s).disposedSubs = (match s.sub with | some d => [d] | none => []) ∧
    (setAutoRefresh false w (setAutoRefresh false w s).state).state
      = (setAutoRefresh false w s).state ∧
    (setAutoRefresh false w (setAutoRefresh false w s).state).disposedSubs = [] := by
  cases w <;> simp [setAutoRefresh]

/-- The observable outcome of one command `execute` call: the
`Logger.error(ex, context)` call if any, the generic failure message shown
via `window.showErrorMessage` if any, the value resolved on success, and the
exception rethrown to the host (always none — the body is wrapped in a
try/catch that swallows it). -/
structure CommandResult (ε α : Type) where
  loggedError : Option (ε × String)
  shownErrorMessage : Option String
  value : Option α
  rethrown : Option ε
deriving DecidableEq, Repr

/-- The try-block body shared by `ShowLineBlameCommand.execute` and
`ToggleLineBlameCommand.execute`: when `args.type` is undefined, read the
annotation type from the configuration store, then invoke the line
annotation controller; either collaborator may throw, modelled as
`Except`. -/
def lineBlameBody {ε τ α : Type} (getConfig : Except ε τ) (annotate : τ → Except ε α)
    (argsType : Option τ) : Except ε α := do
  let t ← match argsType with
    | none => getConfig
    | some t => Except.ok t
  annotate t

/-- `ShowLineBlameCommand.execute` (source lines 18–31): run the body once;
on success resolve with its value, on exception log it under the
`ShowLineBlameCommand` context, show the generic failure message, and
resolve normally — never rethrow, never retry. -/
def executeShowLineBlame {ε τ α : Type} (getConfig : Except ε τ)
    (showAnnotations : τ → Except ε α) (argsType : Option τ) : CommandResult ε α :=
  match lineBlameBody getConfig showAnnotations argsType with
  | Except.ok v =>
      { loggedError := none, shownErrorMessage := none, value := some v, rethrown := none }
  | Except.error e =>
      { loggedError := some (e, "ShowLineBlameCommand")
        shownErrorMessage :=
          some "Unable to show line blame annotations. See output channel for more details"
        value := none, rethrown := none }

/-- `ToggleLineBlameCommand.execute` (source lines 18–31): identical shape
to the show command, with its own log context and failure message. -/
def executeToggleLineBlame {ε τ α : Type} (getConfig : Except ε τ)
    (toggleAnnotations : τ → Except ε α) (argsType : Option τ) : CommandResult ε α :=
  match lineBlameBody getConfig toggleAnnotations argsType with
  | Except.ok v =>
      { loggedError := none, shownErrorMessage := none, value := some v, rethrown := none }
  | Except.error e =>
      { loggedError := some (e, "ToggleLineBlameCommand")
        shownErrorMessage :=
          some "Unable to toggle line blame annotations. See output channel for more details"
        value := none, rethrown := none }

/-- C9: whatever the collaborators do, neither command ever rethrows to the
host; and whenever the try-block body throws (be it the configuration read
or the annotation controller), each command logs the full exception with its
own context string and resolves with its user-visible generic failure
message. -/
theorem lineBlame_commands_catch {ε τ α : Type} (getConfig : Except ε τ)
    (annotate : τ → Except ε α) (argsType : Option τ) :
    (executeShowLineBlame getConfig annotate argsType).rethrown = none ∧
    (executeToggleLineBlame getConfig annotate argsType).rethrown = none ∧
    (∀ e, lineBlameBody getConfig annotate argsType = Except.error e →
      executeShowLineBlame getConfig annotate argsType
        = { loggedError := some (e, "ShowLineBlameCommand")
            shownErrorMessage :=
              some "Unable to show line blame annotations. See output channel for more details"
            value := none, rethrown := none } ∧
      executeToggleLineBlame getConfig annotate argsType
        = { loggedError := some (e, "ToggleLineBlameCommand")
            shownErrorMessage :=
              some "Unable to toggle line blame annotations. See output channel for more details"
            value := none, rethrown := none }) := by
  refine ⟨?_, ?_, ?_⟩
  · cases h : lineBlameBody getConfig annotate argsType <;>
      simp [executeShowLineBlame, h]
  · cases h : lineBlameBody getConfig annotate argsType <;>
      simp [executeToggleLineBlame, h]
  · intro e he
    exact ⟨by simp [executeShowLineBlame, he], by simp [executeToggleLineBlame, he]⟩

theorem lineBlame_commands_catch_witness :
    executeShowLineBlame (Except.error "config store failure")
        (fun t : Nat => (Except.ok t : Except String Nat)) none
      = { loggedError := some ("config store failure", "ShowLineBlameCommand")
          shownErrorMessage :=
            some "Unable to show line blame annotations. See output channel for more details"
          value := none, rethrown := none } :=
  ((lineBlame_commands_catch (Except.error "config store failure")
      (fun t : Nat => (Except.ok t : Except String Nat)) none).2.2
    "config store failure" rfl).1
